import Mathlib

/-!
Verification of the go-astiav screen-recorder example.

This file is a shallow embedding of the two source files of the repository:
the helper file containing `ImageRGBAtoAVFrame` and `NewH264EncoderCodec`,
and `examples/screenrecorder/screencap.go` containing `StartScreenCap` and
`StartScreenRecording`.

Calls into the astiav/ffmpeg C library and the screenshot library are
external effects; each such call site is modelled by an oracle or schedule
value that fixes the call's outcome, and every embedded function computes
the exact sequence of observable events the Go control flow produces for
those outcomes, including Go `defer` LIFO semantics.  Machine integers are
modelled by `Nat`/`Int` (the program's arithmetic on them is a single
division `(90*1000)/fps` and products `frameNumber * pts` that stay far
below 2^63 for any physically reachable frame count).
-/

namespace Screenrec

/-- A rational number as built by `astiav.NewRational(num, den)`. -/
structure Rational where
  num : Int
  den : Int
deriving DecidableEq, Repr

/-- The two pixel formats this program mentions
(`astiav.PixelFormatRgba`, `astiav.PixelFormatYuv420P`). -/
inductive PixelFormat where
  | rgba
  | yuv420p
deriving DecidableEq, Repr

/-- Bit position of `AV_CODEC_FLAG_GLOBAL_HEADER` (`1 << 22`), the flag added by
`astiav.CodecContextFlagGlobalHeader`. -/
def globalHeaderBit : Nat := 22

/-- The configuration that `NewH264EncoderCodec` writes onto the freshly
allocated codec context via the `Set*` calls (lines 127-138 of the helper
file). `flags` is the context's flag bitmask. -/
structure CodecContextConfig where
  width : Int
  height : Int
  framerate : Rational
  timeBase : Rational
  pixelFormat : PixelFormat
  bitRate : Int
  flags : Nat
deriving DecidableEq, Repr

/-- Outcomes of the two fallible astiav calls inside `NewH264EncoderCodec`:
`FindEncoder` returning nil, and `AllocCodecContext` returning nil. -/
structure EncOracle where
  codecFound : Bool
  ctxAllocOk : Bool
deriving DecidableEq, Repr

/-- `NewH264EncoderCodec(width, height, fps, bitrate)` from the helper file:
finds the H264 encoder (error if absent), allocates a codec context (error if
nil), then sets width, height, framerate `fps/1`, time base `1/(90*1000)`,
pixel format YUV420P, bit rate, and adds the global-header flag to the
context's flags (`initFlags` is the allocated context's initial flag mask). -/
def NewH264EncoderCodec (o : EncOracle) (width height : Int) (fps : Nat)
    (bitrate : Int) (initFlags : Nat) : Except String CodecContextConfig :=
  if !o.codecFound then Except.error "error finding h264 encoder"
  else if !o.ctxAllocOk then Except.error "error allocating codec context"
  else Except.ok
    { width := width
      height := height
      framerate := ⟨(fps : Int), 1⟩
      timeBase := ⟨1, 90 * 1000⟩
      pixelFormat := PixelFormat.yuv420p
      bitRate := bitrate
      flags := initFlags ||| (2 ^ globalHeaderBit) }

/-- Outcomes of the six fallible calls inside `ImageRGBAtoAVFrame`, in call
order: `srcFrame.AllocBuffer`, `srcFrame.MakeWritable`,
`srcFrame.Data().FromImage`, `coloredFrame.AllocBuffer`,
`CreateSoftwareScaleContext`, `swsCtx.ScaleFrame`. -/
structure ConvOracle where
  srcAllocBufOk : Bool
  srcWritableOk : Bool
  srcCopyOk : Bool
  dstAllocBufOk : Bool
  swsCreateOk : Bool
  scaleOk : Bool
deriving DecidableEq, Repr

/-- Resource events of `ImageRGBAtoAVFrame`: allocation and release of the
intermediate RGBA frame (`srcFrame`), of the output YUV frame
(`coloredFrame`, "dst"), and of the software-scale context, plus the scale
call.  `freeDst` is in the alphabet so that "the output frame is released
inside the call" is expressible; the code never emits it. -/
inductive CEv where
  | allocSrc
  | freeSrc
  | allocDst
  | freeDst
  | createSws
  | freeSws
  | scale
deriving DecidableEq, Repr

/-- `ImageRGBAtoAVFrame` (helper file, lines 29-104).  Returns the ordered
event trace of one call and whether the output YUV frame was returned to the
caller.  `srcFrame.Free` is deferred right after allocation, so it runs on
every exit path; `swsCtx.Free` is deferred right after a successful
`CreateSoftwareScaleContext`; `coloredFrame` is deliberately not deferred
(the comment in the source says the caller must free it), and on the failure
paths after its allocation it is neither freed nor returned. -/
def ImageRGBAtoAVFrame (o : ConvOracle) : List CEv × Bool :=
  if !o.srcAllocBufOk then ([CEv.allocSrc, CEv.freeSrc], false)
  else if !o.srcWritableOk then ([CEv.allocSrc, CEv.freeSrc], false)
  else if !o.srcCopyOk then ([CEv.allocSrc, CEv.freeSrc], false)
  else if !o.dstAllocBufOk then ([CEv.allocSrc, CEv.allocDst, CEv.freeSrc], false)
  else if !o.swsCreateOk then ([CEv.allocSrc, CEv.allocDst, CEv.freeSrc], false)
  else if !o.scaleOk then
    ([CEv.allocSrc, CEv.allocDst, CEv.createSws, CEv.scale, CEv.freeSws, CEv.freeSrc], false)
  else
    ([CEv.allocSrc, CEv.allocDst, CEv.createSws, CEv.scale, CEv.freeSws, CEv.freeSrc], true)

/-- Actions observable from one iteration of the `StartScreenCap` loop:
a `screenshot.CaptureRect` call, a send on `imgChan`, a `return nil`, or a
`return err`. -/
inductive SampAction where
  | capture
  | forward
  | stopClean
  | stopErr (e : Nat)
deriving DecidableEq, Repr

/-- One resolved iteration of the `select` in `StartScreenCap`: either the
`<-ctx.Done()` case fired, or the `<-ticker.C` case fired and the subsequent
capture returned `captureErr` (`none` = success, `some e` = error code). -/
inductive SampEvent where
  | ctxDone
  | tick (captureErr : Option Nat)
deriving DecidableEq, Repr

/-- `StartScreenCap` (screencap.go, lines 13-41), driven by a schedule of
resolved select iterations.  Result: the list of actions performed and the
way the loop ended: `none` = the schedule ran out with the loop still
running, `some none` = `return nil` (cancellation), `some (some e)` =
`return err` after a failed capture. -/
def StartScreenCap : List SampEvent → List SampAction × Option (Option Nat)
  | [] => ([], none)
  | SampEvent.ctxDone :: _ => ([SampAction.stopClean], some none)
  | SampEvent.tick (some e) :: _ =>
    ([SampAction.capture, SampAction.stopErr e], some (some e))
  | SampEvent.tick none :: rest =>
    let r := StartScreenCap rest
    (SampAction.capture :: SampAction.forward :: r.1, r.2)

/-- Readiness of the two channels the `select` in `StartScreenCap` waits on:
`ctxDone` = the cancellation signal has fired, `tickReady` = a tick is
pending on `ticker.C`. -/
structure SelectState where
  ctxDone : Bool
  tickReady : Bool
deriving DecidableEq, Repr

/-- The two cases of the `select` statement in `StartScreenCap`. -/
inductive Branch where
  | ctxDone
  | tick
deriving DecidableEq, Repr

/-- Go `select` semantics: a case may be chosen iff its channel operation can
proceed; when several can proceed, one is chosen by uniform pseudo-random
selection (Go spec), i.e. nondeterministically — there is no priority. -/
def branchReady (s : SelectState) : Branch → Bool
  | Branch.ctxDone => s.ctxDone
  | Branch.tick => s.tickReady

/-- The actions performed by one iteration of `StartScreenCap`'s loop once
the select has committed to a branch, given the capture outcome for the tick
branch. -/
def samplerIteration : Branch → Option Nat → List SampAction
  | Branch.ctxDone, _ => [SampAction.stopClean]
  | Branch.tick, some e => [SampAction.capture, SampAction.stopErr e]
  | Branch.tick, none => [SampAction.capture, SampAction.forward]

/-- Result of one `encCtx.ReceivePacket` call as classified by the drain loop
of `StartScreenRecording` (lines 187-206): success, `astiav.ErrEagain`,
`astiav.ErrEof`, or any other (fatal) error. -/
inductive RecvResult where
  | ok
  | eagain
  | eof
  | fatal
deriving DecidableEq, Repr

/-- How a run of the drain loop ended: `stopped` = `break` on EAGAIN/EOF (the
outer loop continues), `aborted` = fatal receive or write error (the whole
pipeline returns), `ranOut` = the schedule was exhausted with the loop still
polling (model artifact for an unfinished run). -/
inductive DrainOutcome where
  | stopped
  | aborted
  | ranOut
deriving DecidableEq, Repr

/-- Observable events of `StartScreenRecording`.  The `*Fail` events mark the
early-return error paths; `setParamsFromCtx` is
`videoStream.CodecParameters().FromCodecContext(encCtx)`; `setStreamTimeBase`
is `videoStream.SetTimeBase(encCtx.TimeBase())` with the value written;
`freeIOCtx` is the deferred `ioCtx.Free()` (release of the output I/O
resource); `sendFlush` would be an end-of-stream `SendFrame(nil)` — it is in
the alphabet so that "a flush happens" is expressible, and the code never
emits it. -/
inductive Ev where
  | allocOutputFail
  | encoderFail
  | newStreamFail
  | openCodecFail
  | setParamsFromCtx
  | setParamsFail
  | setStreamTimeBase (tb : Rational)
  | openIOFail
  | writeHeader
  | writeHeaderFail
  | samplerStart
  | convert (ok : Bool)
  | sendFrame (pts : Nat)
  | allocPacketFail
  | receivePacket (r : RecvResult)
  | rescaleTs (src dst : Rational)
  | writePacket
  | sendFlush
  | writeTrailer
  | freeIOCtx
  | stopCalled
  | freePacket
  | freeEncCtx
  | freeOutputCtx
deriving DecidableEq, Repr

/-- One resolved iteration of the outer `select` loop of
`StartScreenRecording` (lines 151-208): either `<-ctx.Done()` fired, or an
image arrived on `imgChan` and the iteration's fallible calls resolve as
given — `convOk` for `ImageRGBAtoAVFrame`, `sendOk` for `encCtx.SendFrame`,
`allocPktOk` for `astiav.AllocPacket`, and `drain` the schedule of
`(ReceivePacket result, WriteFrame outcome)` pairs for the inner drain loop
(the write outcome is consulted only when the receive succeeded). -/
inductive LoopEvent where
  | cancel
  | frame (convOk sendOk allocPktOk : Bool) (drain : List (RecvResult × Bool))
deriving DecidableEq, Repr

/-- The inner drain loop (lines 187-206): repeatedly `ReceivePacket`; on
EAGAIN or EOF `break`; on any other error return (abort the pipeline); on
success, `RescaleTs` from the encoder time base to the stream time base and
then `WriteFrame` (abort on write error). -/
def drainRun (encTb strTb : Rational) : List (RecvResult × Bool) → List Ev × DrainOutcome
  | [] => ([], DrainOutcome.ranOut)
  | (RecvResult.eagain, _) :: _ =>
    ([Ev.receivePacket RecvResult.eagain], DrainOutcome.stopped)
  | (RecvResult.eof, _) :: _ =>
    ([Ev.receivePacket RecvResult.eof], DrainOutcome.stopped)
  | (RecvResult.fatal, _) :: _ =>
    ([Ev.receivePacket RecvResult.fatal], DrainOutcome.aborted)
  | (RecvResult.ok, wOk) :: rest =>
    if wOk then
      let r := drainRun encTb strTb rest
      ([Ev.receivePacket RecvResult.ok, Ev.rescaleTs encTb strTb, Ev.writePacket] ++ r.1, r.2)
    else
      ([Ev.receivePacket RecvResult.ok, Ev.rescaleTs encTb strTb, Ev.writePacket],
        DrainOutcome.aborted)

/-- The outer encode-and-write loop of `StartScreenRecording` (lines
151-208).  `ptsInc` is the per-frame PTS increment `(90*1000)/fps` computed
once before the loop; `n` is `frameNumber` (starts at 0, incremented after a
successful `SendFrame`); `p` counts the packets allocated so far (each
successful `AllocPacket` registers one deferred `packet.Free()`).  Returns
the event trace, whether the loop returned (true) or the schedule ran out
with the program still running (false), and the final packet count. -/
def loopRun (ptsInc : Nat) (encTb strTb : Rational) :
    Nat → Nat → List LoopEvent → List Ev × Bool × Nat
  | _, p, [] => ([], false, p)
  | _, p, LoopEvent.cancel :: _ => ([], true, p)
  | n, p, LoopEvent.frame convOk sendOk allocPktOk ds :: rest =>
    if !convOk then ([Ev.convert false], true, p)
    else if !sendOk then ([Ev.convert true, Ev.sendFrame (n * ptsInc)], true, p)
    else if !allocPktOk then
      ([Ev.convert true, Ev.sendFrame (n * ptsInc), Ev.allocPacketFail], true, p)
    else
      match (drainRun encTb strTb ds).2 with
      | DrainOutcome.aborted =>
        (Ev.convert true :: Ev.sendFrame (n * ptsInc) :: (drainRun encTb strTb ds).1,
          true, p + 1)
      | DrainOutcome.ranOut =>
        (Ev.convert true :: Ev.sendFrame (n * ptsInc) :: (drainRun encTb strTb ds).1,
          false, p + 1)
      | DrainOutcome.stopped =>
        let r := loopRun ptsInc encTb strTb (n + 1) (p + 1) rest
        (Ev.convert true :: Ev.sendFrame (n * ptsInc) :: ((drainRun encTb strTb ds).1 ++ r.1),
          r.2.1, r.2.2)

/-- Outcomes of the fallible startup calls of `StartScreenRecording`
(lines 63-142), in call order, plus the container's (default) bit rate read
by `outputCtx.BitRate()` and the schedule for the main loop. -/
structure Env where
  allocOutputOk : Bool
  codecFound : Bool
  ctxAllocOk : Bool
  newStreamOk : Bool
  openCodecOk : Bool
  setParamsOk : Bool
  openIOOk : Bool
  writeHeaderOk : Bool
  containerBitRate : Int
  loop : List LoopEvent
deriving Repr

/-- The startup phase of `StartScreenRecording` (lines 63-142): allocate the
output format context, build the encoder via `NewH264EncoderCodec`, add the
video stream, open the codec context, copy the codec parameters onto the
stream, set the stream time base from the encoder's, open the I/O context,
and write the container header.  An error value is the full event trace of
that failed run (early `return` after running the registered defers); a
success value is the events so far paired with the stream/encoder time base
used by the main loop. -/
def startupPhase (width height : Int) (fps : Nat) (e : Env) :
    Except (List Ev) (List Ev × Rational) :=
  if !e.allocOutputOk then Except.error [Ev.allocOutputFail]
  else
    match NewH264EncoderCodec ⟨e.codecFound, e.ctxAllocOk⟩ width height fps
        e.containerBitRate 0 with
    | Except.error _ => Except.error [Ev.encoderFail, Ev.freeOutputCtx]
    | Except.ok cfg =>
      if !e.newStreamOk then
        Except.error [Ev.newStreamFail, Ev.freeEncCtx, Ev.freeOutputCtx]
      else if !e.openCodecOk then
        Except.error [Ev.openCodecFail, Ev.freeEncCtx, Ev.freeOutputCtx]
      else if !e.setParamsOk then
        Except.error [Ev.setParamsFail, Ev.freeEncCtx, Ev.freeOutputCtx]
      else if !e.openIOOk then
        Except.error [Ev.setParamsFromCtx, Ev.setStreamTimeBase cfg.timeBase,
          Ev.openIOFail, Ev.freeEncCtx, Ev.freeOutputCtx]
      else if !e.writeHeaderOk then
        Except.error [Ev.setParamsFromCtx, Ev.setStreamTimeBase cfg.timeBase,
          Ev.writeHeaderFail, Ev.freeIOCtx, Ev.freeEncCtx, Ev.freeOutputCtx]
      else
        Except.ok ([Ev.setParamsFromCtx, Ev.setStreamTimeBase cfg.timeBase,
          Ev.writeHeader, Ev.samplerStart], cfg.timeBase)

/-- The deferred calls that run when `StartScreenRecording` returns after a
successful header write, in LIFO registration order: the per-iteration
`packet.Free()` defers, then `stop()`, the deferred `WriteTrailer`, the
deferred `ioCtx.Free()`, `encCtx.Free()`, and `outputCtx.Free()`. -/
def deferTail (np : Nat) : List Ev :=
  List.replicate np Ev.freePacket ++
    [Ev.stopCalled, Ev.writeTrailer, Ev.freeIOCtx, Ev.freeEncCtx, Ev.freeOutputCtx]

/-- `StartScreenRecording` (screencap.go, lines 63-209): startup phase, then
the encode-and-write loop with `pts := (90*1000)/fps` and `frameNumber`
starting at 0; on return the registered defers run.  Returns the full event
trace and whether the function returned (false = the schedule ran out with
the program still running, in which case no defers have run). -/
def startScreenRecordingRun (width height : Int) (fps : Nat) (e : Env) :
    List Ev × Bool :=
  match startupPhase width height fps e with
  | Except.error t => (t, true)
  | Except.ok pr =>
    let r := loopRun ((90 * 1000) / fps) pr.2 pr.2 0 0 e.loop
    (pr.1 ++ r.1 ++ (if r.2.1 then deferTail r.2.2 else []), r.2.1)

/-- The event trace of one run of `StartScreenRecording`. -/
def StartScreenRecording (width height : Int) (fps : Nat) (e : Env) : List Ev :=
  (startScreenRecordingRun width height fps e).1

/-- The presentation timestamps stamped on submitted frames, in submission
order (the arguments of the `sendFrame` events of a trace). -/
def sentPts : List Ev → List Nat
  | [] => []
  | Ev.sendFrame p :: r => p :: sentPts r
  | _ :: r => sentPts r

/-- The PTS sequence of `k` consecutive frames starting at frame counter `n`
with per-frame increment `inc`: `n*inc, (n+1)*inc, ...`. -/
def ptsFrom (n inc : Nat) : Nat → List Nat
  | 0 => []
  | k + 1 => n * inc :: ptsFrom (n + 1) inc k

/-- Events that the main loop of `StartScreenRecording` can emit. -/
def loopEv : Ev → Bool
  | Ev.convert _ => true
  | Ev.sendFrame _ => true
  | Ev.allocPacketFail => true
  | Ev.receivePacket _ => true
  | Ev.rescaleTs _ _ => true
  | Ev.writePacket => true
  | _ => false

/-- Whether an event is the packet write (`outputCtx.WriteFrame`). -/
def isWrite : Ev → Bool
  | Ev.writePacket => true
  | _ => false

/-- Whether an event is a timestamp rescale (`packet.RescaleTs`). -/
def isRescale : Ev → Bool
  | Ev.rescaleTs _ _ => true
  | _ => false

/-- Scan of a trace checking that every `writePacket` event is immediately
preceded by a `rescaleTs` event; `prev` is the event preceding the scanned
suffix. -/
def guardedFrom : Ev → List Ev → Bool
  | _, [] => true
  | prev, e :: r => (!isWrite e || isRescale prev) && guardedFrom e r

/-- Every packet write in the trace is immediately preceded by a rescale (and
a write is never the very first event). -/
def rescaleBeforeWrites : List Ev → Bool
  | [] => true
  | e :: r => !isWrite e && guardedFrom e r

/-- The last element of a list, or `d` if it is empty. -/
def lastOr (d : Ev) : List Ev → Ev
  | [] => d
  | e :: r => lastOr e r

/-- No `writePacket` event occurs before the first `writeHeader` event. -/
def headerBeforePackets : List Ev → Bool
  | [] => true
  | Ev.writeHeader :: _ => true
  | Ev.writePacket :: _ => false
  | _ :: r => headerBeforePackets r

/-- At the first `writeHeader` event, both `setParamsFromCtx` and a
`setStreamTimeBase` event have already occurred (the accumulators record
whether each has been seen). -/
def paramsBeforeHeader : Bool → Bool → List Ev → Bool
  | _, _, [] => true
  | _, sawTb, Ev.setParamsFromCtx :: r => paramsBeforeHeader true sawTb r
  | sawPar, _, Ev.setStreamTimeBase _ :: r => paramsBeforeHeader sawPar true r
  | sawPar, sawTb, Ev.writeHeader :: _ => sawPar && sawTb
  | sawPar, sawTb, _ :: r => paramsBeforeHeader sawPar sawTb r

/-- No `writePacket` event occurs after the first `writeTrailer` event. -/
def noPacketAfterTrailer : List Ev → Bool
  | [] => true
  | Ev.writeTrailer :: r => !(r.contains Ev.writePacket)
  | _ :: r => noPacketAfterTrailer r

/-- No `writeTrailer` event occurs after any `freeIOCtx` event (the I/O
resource is released only once the trailer has been written). -/
def noTrailerAfterFree : List Ev → Bool
  | [] => true
  | Ev.freeIOCtx :: r => !(r.contains Ev.writeTrailer) && noTrailerAfterFree r
  | _ :: r => noTrailerAfterFree r

/-- A run in which startup fully succeeds, one frame is captured, converted,
submitted, and yields one packet that is rescaled and written (then EAGAIN
stops the drain), after which cancellation fires. -/
def envStream : Env :=
  { allocOutputOk := true
    codecFound := true
    ctxAllocOk := true
    newStreamOk := true
    openCodecOk := true
    setParamsOk := true
    openIOOk := true
    writeHeaderOk := true
    containerBitRate := 0
    loop := [LoopEvent.frame true true true [(RecvResult.ok, true), (RecvResult.eagain, true)],
             LoopEvent.cancel] }

/-- A run in which two frames are submitted (each drain ends at once with
EAGAIN) and then cancellation fires. -/
def envTwoFrames : Env :=
  { envStream with
    loop := [LoopEvent.frame true true true [(RecvResult.eagain, true)],
             LoopEvent.frame true true true [(RecvResult.eagain, true)],
             LoopEvent.cancel] }

/-- A run in which the H264 encoder lookup fails at startup. -/
def envCodecFail : Env :=
  { envStream with codecFound := false }

/-- C9: for every fps and bit-rate input (and any initial flag mask), a
successful `NewH264EncoderCodec` returns a codec context whose time base is
the fixed rational 1/90000 independently of fps, whose frame rate is fps/1,
whose pixel format is planar YUV 4:2:0, and whose flag mask has the
global-header bit set. -/
theorem encoderConfigC9 (o : EncOracle) (wd ht : Int) (fps : Nat) (br : Int)
    (f0 : Nat) (cfg : CodecContextConfig)
    (hok : NewH264EncoderCodec o wd ht fps br f0 = Except.ok cfg) :
    cfg.timeBase = ⟨1, 90000⟩ ∧ cfg.framerate = ⟨(fps : Int), 1⟩ ∧
      cfg.pixelFormat = PixelFormat.yuv420p ∧
      cfg.flags.testBit globalHeaderBit = true := by
  obtain ⟨cf, ca⟩ := o
  cases cf <;> cases ca <;> simp [NewH264EncoderCodec] at hok
  subst hok
  refine ⟨?_, rfl, rfl, ?_⟩
  · show (⟨1, 90 * 1000⟩ : Rational) = ⟨1, 90000⟩
    decide
  · simp [Nat.testBit_or, Nat.testBit_two_pow_self]

/-- Witness for C9 at a concrete successful construction (1920x1080, 30 fps,
bit rate 0, fresh flag mask 0). -/
theorem encoderConfigC9Witness :
    ({ width := 1920, height := 1080, framerate := ⟨(30 : Int), 1⟩,
       timeBase := ⟨1, 90 * 1000⟩, pixelFormat := PixelFormat.yuv420p,
       bitRate := 0, flags := 0 ||| (2 ^ globalHeaderBit) } :
        CodecContextConfig).timeBase = ⟨1, 90000⟩ ∧
    ({ width := 1920, height := 1080, framerate := ⟨(30 : Int), 1⟩,
       timeBase := ⟨1, 90 * 1000⟩, pixelFormat := PixelFormat.yuv420p,
       bitRate := 0, flags := 0 ||| (2 ^ globalHeaderBit) } :
        CodecContextConfig).framerate = ⟨(30 : Nat), 1⟩ ∧
    ({ width := 1920, height := 1080, framerate := ⟨(30 : Int), 1⟩,
       timeBase := ⟨1, 90 * 1000⟩, pixelFormat := PixelFormat.yuv420p,
       bitRate := 0, flags := 0 ||| (2 ^ globalHeaderBit) } :
        CodecContextConfig).pixelFormat = PixelFormat.yuv420p ∧
    ({ width := 1920, height := 1080, framerate := ⟨(30 : Int), 1⟩,
       timeBase := ⟨1, 90 * 1000⟩, pixelFormat := PixelFormat.yuv420p,
       bitRate := 0, flags := 0 ||| (2 ^ globalHeaderBit) } :
        CodecContextConfig).flags.testBit globalHeaderBit = true :=
  encoderConfigC9 ⟨true, true⟩ 1920 1080 30 0 0 _ rfl

/-- C3: in the drain loop, an EAGAIN ("no packet ready yet") receive stops
draining with a non-fatal outcome, an EOF ("stream ended") receive stops
draining, and any other receive error is fatal: the enclosing pipeline loop
returns (aborts), while a stopped drain lets it continue with the rest of
the schedule. -/
theorem drainClassifyC3 (etb stb : Rational) (rest : List (RecvResult × Bool))
    (w : Bool) :
    drainRun etb stb ((RecvResult.eagain, w) :: rest) =
      ([Ev.receivePacket RecvResult.eagain], DrainOutcome.stopped) ∧
    drainRun etb stb ((RecvResult.eof, w) :: rest) =
      ([Ev.receivePacket RecvResult.eof], DrainOutcome.stopped) ∧
    drainRun etb stb ((RecvResult.fatal, w) :: rest) =
      ([Ev.receivePacket RecvResult.fatal], DrainOutcome.aborted) ∧
    (∀ (inc n p : Nat) (levs : List LoopEvent) (ds : List (RecvResult × Bool)),
      (drainRun etb stb ds).2 = DrainOutcome.aborted →
      (loopRun inc etb stb n p (LoopEvent.frame true true true ds :: levs)).2.1 = true) ∧
    (∀ (inc n p : Nat) (levs : List LoopEvent) (ds : List (RecvResult × Bool)),
      (drainRun etb stb ds).2 = DrainOutcome.stopped →
      (loopRun inc etb stb n p (LoopEvent.frame true true true ds :: levs)).2.1 =
        (loopRun inc etb stb (n + 1) (p + 1) levs).2.1) := by
  refine ⟨rfl, rfl, rfl, ?_, ?_⟩ <;>
    · intro inc n p levs ds h
      simp [loopRun, h]

/-- Witness for C3: concrete drain schedules exercising the EAGAIN stop and
the fatal abort. -/
theorem drainClassifyC3Witness :
    drainRun ⟨1, 90000⟩ ⟨1, 90000⟩ [(RecvResult.eagain, true)] =
      ([Ev.receivePacket RecvResult.eagain], DrainOutcome.stopped) ∧
    (loopRun 3000 ⟨1, 90000⟩ ⟨1, 90000⟩ 0 0
      [LoopEvent.frame true true true [(RecvResult.fatal, true)]]).2.1 = true :=
  ⟨(drainClassifyC3 ⟨1, 90000⟩ ⟨1, 90000⟩ [] true).1,
   (drainClassifyC3 ⟨1, 90000⟩ ⟨1, 90000⟩ [] true).2.2.2.1 3000 0 0 []
     [(RecvResult.fatal, true)] (by decide)⟩

/-- C4 counterexample: it is false that whenever the cancellation signal and
a pending tick are simultaneously ready, a chosen branch never captures or
forwards: Go's select may choose the ready tick branch even though
cancellation is signalled, and that iteration captures and forwards a
bitmap. -/
theorem cancelRaceC4Cex :
    ¬ (∀ (s : SelectState) (b : Branch) (cap : Option Nat),
        s.ctxDone = true → branchReady s b = true →
        SampAction.forward ∉ samplerIteration b cap) := by
  intro hcl
  exact hcl ⟨true, true⟩ Branch.tick none rfl rfl (by decide)

/-- C4 (amended): cancellation is checked on every iteration alongside the
tick; when cancellation is signalled and no tick is simultaneously ready,
the only branch the select can take stops the sampler cleanly without
capturing or forwarding.  When both are ready the select chooses
nondeterministically, so one more capture-and-forward may happen after
cancellation (see the counterexample). -/
theorem cancelRaceC4Amended (s : SelectState) (b : Branch) (cap : Option Nat)
    (hdone : s.ctxDone = true) (hnt : s.tickReady = false)
    (hb : branchReady s b = true) :
    samplerIteration b cap = [SampAction.stopClean] ∧
    SampAction.forward ∉ samplerIteration b cap := by
  cases b with
  | ctxDone =>
    cases cap <;>
      exact ⟨rfl, fun hm => by simp [samplerIteration] at hm⟩
  | tick => simp [branchReady, hnt] at hb

/-- Witness for C4 (amended): cancellation signalled, no pending tick, the
done branch is taken and only stops. -/
theorem cancelRaceC4Witness :
    samplerIteration Branch.ctxDone none = [SampAction.stopClean] ∧
    SampAction.forward ∉ samplerIteration Branch.ctxDone none :=
  cancelRaceC4Amended ⟨true, false⟩ Branch.ctxDone none rfl rfl rfl

/-- C8 counterexample: it is false that on every exit path the output YUV
frame's ownership is transferred to the caller: when
`coloredFrame.AllocBuffer` fails, the output frame has been allocated but
the call returns an error without returning or freeing it (a leak). -/
theorem convOwnershipC8Cex :
    ¬ (∀ (o : ConvOracle),
        CEv.allocDst ∈ (ImageRGBAtoAVFrame o).1 →
        (ImageRGBAtoAVFrame o).2 = true ∨ CEv.freeDst ∈ (ImageRGBAtoAVFrame o).1) := by
  intro hcl
  exact absurd (hcl ⟨true, true, true, false, true, true⟩ (by decide)) (by decide)

/-- C8 (amended): on every exit path the intermediate RGBA frame is released
before returning, and the scale context, once built, is released before
returning; the output YUV frame is never released inside the call, and on
success it is returned so ownership transfers to the caller — but on the
failure paths after its allocation it is neither freed nor returned. -/
theorem convOwnershipC8Amended (o : ConvOracle) :
    CEv.freeSrc ∈ (ImageRGBAtoAVFrame o).1 ∧
    (CEv.createSws ∈ (ImageRGBAtoAVFrame o).1 →
      CEv.freeSws ∈ (ImageRGBAtoAVFrame o).1) ∧
    CEv.freeDst ∉ (ImageRGBAtoAVFrame o).1 ∧
    ((ImageRGBAtoAVFrame o).2 = true → CEv.allocDst ∈ (ImageRGBAtoAVFrame o).1) := by
  obtain ⟨a, b, c, d, e, f⟩ := o
  cases a <;> cases b <;> cases c <;> cases d <;> cases e <;> cases f <;> decide

/-- Witness for C8 (amended) on the all-success path. -/
theorem convOwnershipC8Witness :
    CEv.freeSrc ∈ (ImageRGBAtoAVFrame ⟨true, true, true, true, true, true⟩).1 ∧
    CEv.freeSws ∈ (ImageRGBAtoAVFrame ⟨true, true, true, true, true, true⟩).1 ∧
    CEv.allocDst ∈ (ImageRGBAtoAVFrame ⟨true, true, true, true, true, true⟩).1 :=
  ⟨(convOwnershipC8Amended ⟨true, true, true, true, true, true⟩).1,
   (convOwnershipC8Amended ⟨true, true, true, true, true, true⟩).2.1 (by decide),
   (convOwnershipC8Amended ⟨true, true, true, true, true, true⟩).2.2.2 (by decide)⟩

/-- C10: the sampler loop of `StartScreenCap` terminates in exactly two
ways: it returns nil (success) only when the cancellation signal fired, and
it returns a non-nil error only when a capture call failed with that error;
a cancellation iteration returns nil at once, and a failed-capture iteration
returns that error at once; if the loop has not terminated, every iteration
so far was a successful tick. -/
theorem samplerExitC10 (evs : List SampEvent) :
    ((StartScreenCap evs).2 = some none → SampEvent.ctxDone ∈ evs) ∧
    (∀ er, (StartScreenCap evs).2 = some (some er) →
      SampEvent.tick (some er) ∈ evs) ∧
    ((StartScreenCap evs).2 = none → ∀ ev ∈ evs, ev = SampEvent.tick none) ∧
    (∀ rest, StartScreenCap (SampEvent.ctxDone :: rest) =
      ([SampAction.stopClean], some none)) ∧
    (∀ er rest, StartScreenCap (SampEvent.tick (some er) :: rest) =
      ([SampAction.capture, SampAction.stopErr er], some (some er))) := by
  induction evs with
  | nil =>
    refine ⟨?_, ?_, ?_, fun rest => rfl, fun er rest => rfl⟩
    · intro h; exact absurd h (by decide)
    · intro er h; simp [StartScreenCap] at h
    · intro _ ev hev; exact absurd hev (List.not_mem_nil ev)
  | cons ev rest ih =>
    refine ⟨?_, ?_, ?_, fun r => rfl, fun er r => rfl⟩
    · cases ev with
      | ctxDone => intro _; exact List.mem_cons_self _ _
      | tick c =>
        cases c with
        | none =>
          intro h
          exact List.mem_cons_of_mem _ (ih.1 h)
        | some e => intro h; simp [StartScreenCap] at h
    · intro er
      cases ev with
      | ctxDone => intro h; simp [StartScreenCap] at h
      | tick c =>
        cases c with
        | none => intro h; exact List.mem_cons_of_mem _ (ih.2.1 er h)
        | some e =>
          intro h
          simp only [StartScreenCap, Option.some.injEq] at h
          exact h ▸ List.mem_cons_self _ _
    · cases ev with
      | ctxDone => intro h; simp [StartScreenCap] at h
      | tick c =>
        cases c with
        | none =>
          intro h ev2 hev
          rcases List.mem_cons.mp hev with h2 | h2
          · exact h2
          · exact ih.2.2.1 h ev2 h2
        | some e => intro h; simp [StartScreenCap] at h

/-- Witness for C10: a run ended by cancellation returns nil and the
cancellation event is in its schedule. -/
theorem samplerExitC10Witness :
    SampEvent.ctxDone ∈ [SampEvent.ctxDone] ∧
    StartScreenCap [SampEvent.ctxDone] = ([SampAction.stopClean], some none) :=
  ⟨(samplerExitC10 [SampEvent.ctxDone]).1 rfl,
   (samplerExitC10 [SampEvent.ctxDone]).2.2.2.1 []⟩

/-- A failed startup phase produces one of the seven early-return traces. -/
theorem startupPhase_error (wd ht : Int) (fps : Nat) (e : Env) (t : List Ev)
    (herr : startupPhase wd ht fps e = Except.error t) :
    t = [Ev.allocOutputFail] ∨
    t = [Ev.encoderFail, Ev.freeOutputCtx] ∨
    t = [Ev.newStreamFail, Ev.freeEncCtx, Ev.freeOutputCtx] ∨
    t = [Ev.openCodecFail, Ev.freeEncCtx, Ev.freeOutputCtx] ∨
    t = [Ev.setParamsFail, Ev.freeEncCtx, Ev.freeOutputCtx] ∨
    t = [Ev.setParamsFromCtx, Ev.setStreamTimeBase ⟨1, 90 * 1000⟩, Ev.openIOFail,
      Ev.freeEncCtx, Ev.freeOutputCtx] ∨
    t = [Ev.setParamsFromCtx, Ev.setStreamTimeBase ⟨1, 90 * 1000⟩,
      Ev.writeHeaderFail, Ev.freeIOCtx, Ev.freeEncCtx, Ev.freeOutputCtx] := by
  obtain ⟨ao, cf, ca, ns, oc, sp, oi, whk, br, lp⟩ := e
  cases ao <;> cases cf <;> cases ca <;> cases ns <;> cases oc <;> cases sp <;>
    cases oi <;> cases whk <;> simp_all [startupPhase, NewH264EncoderCodec]

/-- A successful startup phase produces the fixed four-event prefix, the
1/90000 time base, and implies that every startup flag was true. -/
theorem startupPhase_ok (wd ht : Int) (fps : Nat) (e : Env) (s2 : List Ev)
    (tb : Rational) (hok : startupPhase wd ht fps e = Except.ok (s2, tb)) :
    s2 = [Ev.setParamsFromCtx, Ev.setStreamTimeBase ⟨1, 90 * 1000⟩,
      Ev.writeHeader, Ev.samplerStart] ∧
    tb = ⟨1, 90 * 1000⟩ ∧
    e.allocOutputOk = true ∧ e.codecFound = true ∧ e.ctxAllocOk = true ∧
    e.newStreamOk = true ∧ e.openCodecOk = true ∧ e.setParamsOk = true ∧
    e.openIOOk = true ∧ e.writeHeaderOk = true := by
  obtain ⟨ao, cf, ca, ns, oc, sp, oi, whk, br, lp⟩ := e
  cases ao <;> cases cf <;> cases ca <;> cases ns <;> cases oc <;> cases sp <;>
    cases oi <;> cases whk <;> simp [startupPhase, NewH264EncoderCodec] at hok
  obtain ⟨h1, h2⟩ := hok
  subst h1
  subst h2
  simp

/-- Trace decomposition of a run whose startup failed. -/
theorem run_decomp_error (wd ht : Int) (fps : Nat) (e : Env) (t : List Ev)
    (herr : startupPhase wd ht fps e = Except.error t) :
    StartScreenRecording wd ht fps e = t ∧
    (startScreenRecordingRun wd ht fps e).2 = true := by
  constructor <;> simp [StartScreenRecording, startScreenRecordingRun, herr]

/-- Trace decomposition of a run whose startup succeeded. -/
theorem run_decomp (wd ht : Int) (fps : Nat) (e : Env) (s2 : List Ev)
    (tb : Rational) (hsp : startupPhase wd ht fps e = Except.ok (s2, tb)) :
    StartScreenRecording wd ht fps e =
      s2 ++ ((loopRun ((90 * 1000) / fps) tb tb 0 0 e.loop).1 ++
        (if (loopRun ((90 * 1000) / fps) tb tb 0 0 e.loop).2.1 then
          deferTail (loopRun ((90 * 1000) / fps) tb tb 0 0 e.loop).2.2
        else [])) := by
  simp [StartScreenRecording, startScreenRecordingRun, hsp]

/-- After a successful startup the run's exit flag is the loop's exit flag. -/
theorem run_exit (wd ht : Int) (fps : Nat) (e : Env) (s2 : List Ev)
    (tb : Rational) (hsp : startupPhase wd ht fps e = Except.ok (s2, tb)) :
    (startScreenRecordingRun wd ht fps e).2 =
      (loopRun ((90 * 1000) / fps) tb tb 0 0 e.loop).2.1 := by
  simp [startScreenRecordingRun, hsp]

/-- Every event emitted by the drain loop is a loop event. -/
theorem drainRun_mem (etb stb : Rational) (ds : List (RecvResult × Bool)) :
    ∀ x ∈ (drainRun etb stb ds).1, loopEv x = true := by
  induction ds with
  | nil => simp [drainRun]
  | cons hd rest ih =>
    obtain ⟨r, w⟩ := hd
    cases r <;> cases w <;> simp_all [drainRun, loopEv]

/-- Every event emitted by the main loop is a loop event. -/
theorem loopRun_mem (inc : Nat) (etb stb : Rational) :
    ∀ (evs : List LoopEvent) (n p : Nat),
      ∀ x ∈ (loopRun inc etb stb n p evs).1, loopEv x = true := by
  intro evs
  induction evs with
  | nil => intro n p; simp [loopRun]
  | cons ev rest ih =>
    intro n p
    cases ev with
    | cancel => simp [loopRun]
    | frame cOk sOk aOk ds =>
      cases cOk
      · simp [loopRun, loopEv]
      · cases sOk
        · simp [loopRun, loopEv]
        · cases aOk
          · simp [loopRun, loopEv]
          · cases hdo : (drainRun etb stb ds).2 with
            | stopped =>
              intro x hx
              simp [loopRun, hdo] at hx
              rcases hx with rfl | rfl | hx | hx
              · rfl
              · rfl
              · exact drainRun_mem etb stb ds x hx
              · exact ih (n + 1) (p + 1) x hx
            | aborted =>
              intro x hx
              simp [loopRun, hdo] at hx
              rcases hx with rfl | rfl | hx
              · rfl
              · rfl
              · exact drainRun_mem etb stb ds x hx
            | ranOut =>
              intro x hx
              simp [loopRun, hdo] at hx
              rcases hx with rfl | rfl | hx
              · rfl
              · rfl
              · exact drainRun_mem etb stb ds x hx

/-- Loop events other than `x` never appear in the main-loop trace. -/
theorem loopRun_not_mem (inc : Nat) (etb stb : Rational) (evs : List LoopEvent)
    (n p : Nat) (x : Ev) (hx : loopEv x = false) :
    x ∉ (loopRun inc etb stb n p evs).1 := fun hm => by
  have hq := loopRun_mem inc etb stb evs n p x hm
  rw [hx] at hq
  exact Bool.false_ne_true hq

/-- Count form of `loopRun_not_mem`. -/
theorem loopRun_count_zero (inc : Nat) (etb stb : Rational) (evs : List LoopEvent)
    (n p : Nat) (x : Ev) (hx : loopEv x = false) :
    ((loopRun inc etb stb n p evs).1).count x = 0 :=
  List.count_eq_zero.mpr (loopRun_not_mem inc etb stb evs n p x hx)

/-- `sentPts` distributes over append. -/
theorem sentPts_append (l r : List Ev) :
    sentPts (l ++ r) = sentPts l ++ sentPts r := by
  induction l with
  | nil => rfl
  | cons e t ih => cases e <;> simp [sentPts, ih]

/-- The drain loop submits no frames. -/
theorem drainRun_sentPts (etb stb : Rational) (ds : List (RecvResult × Bool)) :
    sentPts (drainRun etb stb ds).1 = [] := by
  induction ds with
  | nil => rfl
  | cons hd rest ih =>
    obtain ⟨r, w⟩ := hd
    cases r <;> cases w <;> simp [drainRun, sentPts, sentPts_append, ih]

/-- The PTS values submitted by the main loop starting at frame counter `n`
are the consecutive multiples `n*inc, (n+1)*inc, ...`. -/
theorem loopRun_sentPts (inc : Nat) (etb stb : Rational) :
    ∀ (evs : List LoopEvent) (n p : Nat),
      ∃ k, sentPts (loopRun inc etb stb n p evs).1 = ptsFrom n inc k := by
  intro evs
  induction evs with
  | nil => intro n p; exact ⟨0, rfl⟩
  | cons ev rest ih =>
    intro n p
    cases ev with
    | cancel => exact ⟨0, rfl⟩
    | frame cOk sOk aOk ds =>
      cases cOk with
      | false => exact ⟨0, by simp [loopRun, sentPts, ptsFrom]⟩
      | true =>
        cases sOk with
        | false => exact ⟨1, by simp [loopRun, sentPts, ptsFrom]⟩
        | true =>
          cases aOk with
          | false => exact ⟨1, by simp [loopRun, sentPts, ptsFrom]⟩
          | true =>
            cases hdo : (drainRun etb stb ds).2 with
            | stopped =>
              obtain ⟨k, hk⟩ := ih (n + 1) (p + 1)
              exact ⟨k + 1, by simp [loopRun, hdo, sentPts, sentPts_append,
                drainRun_sentPts, hk, ptsFrom]⟩
            | aborted =>
              exact ⟨1, by simp [loopRun, hdo, sentPts, sentPts_append,
                drainRun_sentPts, ptsFrom]⟩
            | ranOut =>
              exact ⟨1, by simp [loopRun, hdo, sentPts, sentPts_append,
                drainRun_sentPts, ptsFrom]⟩

/-- Length of a `ptsFrom` sequence. -/
theorem ptsFrom_length (inc : Nat) :
    ∀ (k n : Nat), (ptsFrom n inc k).length = k := by
  intro k
  induction k with
  | zero => intro n; rfl
  | succ k ih => intro n; simp [ptsFrom, ih]

/-- The i-th element of a `ptsFrom` sequence. -/
theorem ptsFrom_get (inc : Nat) :
    ∀ (k n i : Nat), i < k → (ptsFrom n inc k).get? i = some ((n + i) * inc) := by
  intro k
  induction k with
  | zero => intro n i h; exact absurd h (Nat.not_lt_zero i)
  | succ k ih =>
    intro n i h
    cases i with
    | zero => simp [ptsFrom]
    | succ i =>
      have h2 : i < k := Nat.lt_of_succ_lt_succ h
      have h3 := ih (n + 1) i h2
      have h4 : n + 1 + i = n + (i + 1) := by omega
      simp only [ptsFrom, List.get?_cons_succ]
      rw [h3, h4]

/-- The defers after the loop submit no frames. -/
theorem sentPts_deferTail (np : Nat) : sentPts (deferTail np) = [] := by
  rw [deferTail, sentPts_append]
  have h : sentPts (List.replicate np Ev.freePacket) = [] := by
    induction np with
    | zero => rfl
    | succ k ih => simp [List.replicate, sentPts, ih]
  rw [h]
  rfl

/-- `guardedFrom` over an append. -/
theorem guardedFrom_append (l r : List Ev) :
    ∀ p, guardedFrom p (l ++ r) =
      (guardedFrom p l && guardedFrom (lastOr p l) r) := by
  induction l with
  | nil => intro p; simp [guardedFrom, lastOr]
  | cons e t ih => intro p; simp [guardedFrom, lastOr, ih, Bool.and_assoc]

/-- A list without write events is guarded from any predecessor. -/
theorem guardedFrom_no_write (l : List Ev) (h : ∀ x ∈ l, isWrite x = false) :
    ∀ p, guardedFrom p l = true := by
  induction l with
  | nil => intro p; rfl
  | cons e t ih =>
    intro p
    have he : isWrite e = false := h e (List.mem_cons_self e t)
    have ht : ∀ x ∈ t, isWrite x = false :=
      fun x hx => h x (List.mem_cons_of_mem e hx)
    simp [guardedFrom, he, ih ht]

/-- Every write in a drain-loop trace is immediately preceded by a rescale,
whatever event precedes the trace. -/
theorem drainRun_guardedFrom (etb stb : Rational) (ds : List (RecvResult × Bool)) :
    ∀ p, guardedFrom p (drainRun etb stb ds).1 = true := by
  induction ds with
  | nil => intro p; rfl
  | cons hd rest ih =>
    obtain ⟨r, w⟩ := hd
    intro p
    cases r <;> cases w <;>
      simp [drainRun, guardedFrom_append, guardedFrom, isWrite, isRescale, lastOr, ih]

/-- Every write in a main-loop trace is immediately preceded by a rescale,
whatever event precedes the trace. -/
theorem loopRun_guardedFrom (inc : Nat) (etb stb : Rational) :
    ∀ (evs : List LoopEvent) (n p : Nat) (prev : Ev),
      guardedFrom prev (loopRun inc etb stb n p evs).1 = true := by
  intro evs
  induction evs with
  | nil => intro n p prev; rfl
  | cons ev rest ih =>
    intro n p prev
    cases ev with
    | cancel => rfl
    | frame cOk sOk aOk ds =>
      cases cOk with
      | false => simp [loopRun, guardedFrom, isWrite]
      | true =>
        cases sOk with
        | false => simp [loopRun, guardedFrom, isWrite]
        | true =>
          cases aOk with
          | false => simp [loopRun, guardedFrom, isWrite]
          | true =>
            cases hdo : (drainRun etb stb ds).2 <;>
              simp [loopRun, hdo, guardedFrom, guardedFrom_append, isWrite,
                drainRun_guardedFrom, ih]

/-- Rescale events in a drain-loop trace carry exactly the time bases the
loop was called with. -/
theorem drainRun_rescale (etb stb : Rational) (ds : List (RecvResult × Bool)) :
    ∀ s d, Ev.rescaleTs s d ∈ (drainRun etb stb ds).1 → s = etb ∧ d = stb := by
  induction ds with
  | nil => intro s d h; simp [drainRun] at h
  | cons hd rest ih =>
    obtain ⟨r, w⟩ := hd
    intro s d h
    cases r with
    | eagain => simp [drainRun] at h
    | eof => simp [drainRun] at h
    | fatal => simp [drainRun] at h
    | ok =>
      cases w with
      | false =>
        simp [drainRun] at h
        exact h
      | true =>
        simp [drainRun] at h
        rcases h with h | h
        · exact h
        · exact ih s d h

/-- Rescale events in a main-loop trace carry exactly the time bases the
loop was called with. -/
theorem loopRun_rescale (inc : Nat) (etb stb : Rational) :
    ∀ (evs : List LoopEvent) (n p : Nat) (s d : Rational),
      Ev.rescaleTs s d ∈ (loopRun inc etb stb n p evs).1 → s = etb ∧ d = stb := by
  intro evs
  induction evs with
  | nil => intro n p s d h; simp [loopRun] at h
  | cons ev rest ih =>
    intro n p s d h
    cases ev with
    | cancel => simp [loopRun] at h
    | frame cOk sOk aOk ds =>
      cases cOk with
      | false => simp [loopRun] at h
      | true =>
        cases sOk with
        | false => simp [loopRun] at h
        | true =>
          cases aOk with
          | false => simp [loopRun] at h
          | true =>
            cases hdo : (drainRun etb stb ds).2 with
            | stopped =>
              simp [loopRun, hdo] at h
              rcases h with h | h
              · exact drainRun_rescale etb stb ds s d h
              · exact ih (n + 1) (p + 1) s d h
            | aborted =>
              simp [loopRun, hdo] at h
              exact drainRun_rescale etb stb ds s d h
            | ranOut =>
              simp [loopRun, hdo] at h
              exact drainRun_rescale etb stb ds s d h

/-- The defer events contain no write. -/
theorem deferTail_no_write (np : Nat) :
    ∀ x ∈ deferTail np, isWrite x = false := by
  intro x hm
  rw [deferTail] at hm
  rcases List.mem_append.mp hm with hm | hm
  · rw [List.eq_of_mem_replicate hm]; rfl
  · simp at hm
    rcases hm with rfl | rfl | rfl | rfl | rfl <;> rfl

/-- The defer events are guarded from any predecessor. -/
theorem deferTail_guardedFrom (np : Nat) (prev : Ev) :
    guardedFrom prev (deferTail np) = true :=
  guardedFrom_no_write (deferTail np) (deferTail_no_write np) prev

/-- Membership in the defer events. -/
theorem mem_deferTail (x : Ev) (np : Nat) (hm : x ∈ deferTail np) :
    x = Ev.freePacket ∨ x = Ev.stopCalled ∨ x = Ev.writeTrailer ∨
      x = Ev.freeIOCtx ∨ x = Ev.freeEncCtx ∨ x = Ev.freeOutputCtx := by
  rw [deferTail] at hm
  rcases List.mem_append.mp hm with hm | hm
  · exact Or.inl (List.eq_of_mem_replicate hm)
  · simp at hm
    tauto

/-- Count of a non-defer event in the defer events. -/
theorem deferTail_count_zero (x : Ev) (np : Nat) (h1 : x ≠ Ev.freePacket)
    (h2 : x ≠ Ev.stopCalled) (h3 : x ≠ Ev.writeTrailer) (h4 : x ≠ Ev.freeIOCtx)
    (h5 : x ≠ Ev.freeEncCtx) (h6 : x ≠ Ev.freeOutputCtx) :
    (deferTail np).count x = 0 := by
  refine List.count_eq_zero.mpr ?_
  intro hm
  rcases mem_deferTail x np hm with h | h | h | h | h | h <;> simp_all

/-- The trailer is written exactly once among the defer events. -/
theorem deferTail_count_trailer (np : Nat) :
    (deferTail np).count Ev.writeTrailer = 1 := by
  rw [deferTail, List.count_append]
  have h : (List.replicate np Ev.freePacket).count Ev.writeTrailer = 0 :=
    List.count_eq_zero.mpr fun hm => by
      have := List.eq_of_mem_replicate hm
      simp at this
  rw [h]
  decide

/-- `noPacketAfterTrailer` ignores a prefix without trailer events. -/
theorem noPacketAfterTrailer_append (l r : List Ev) (h : Ev.writeTrailer ∉ l) :
    noPacketAfterTrailer (l ++ r) = noPacketAfterTrailer r := by
  induction l with
  | nil => rfl
  | cons e t ih =>
    have h1 : e ≠ Ev.writeTrailer := fun hq => h (hq ▸ List.mem_cons_self e t)
    have h2 : Ev.writeTrailer ∉ t := fun hq => h (List.mem_cons_of_mem e hq)
    cases e <;> first
      | exact absurd rfl h1
      | simpa [noPacketAfterTrailer] using ih h2

/-- `noTrailerAfterFree` ignores a prefix without `freeIOCtx` events. -/
theorem noTrailerAfterFree_append (l r : List Ev) (h : Ev.freeIOCtx ∉ l) :
    noTrailerAfterFree (l ++ r) = noTrailerAfterFree r := by
  induction l with
  | nil => rfl
  | cons e t ih =>
    have h1 : e ≠ Ev.freeIOCtx := fun hq => h (hq ▸ List.mem_cons_self e t)
    have h2 : Ev.freeIOCtx ∉ t := fun hq => h (List.mem_cons_of_mem e hq)
    cases e <;> first
      | exact absurd rfl h1
      | simpa [noTrailerAfterFree] using ih h2

/-- No packet write follows the trailer among the defer events. -/
theorem noPacketAfterTrailer_deferTail (np : Nat) :
    noPacketAfterTrailer (deferTail np) = true := by
  have h : Ev.writeTrailer ∉ List.replicate np Ev.freePacket := fun hm => by
    have := List.eq_of_mem_replicate hm
    simp at this
  rw [deferTail, noPacketAfterTrailer_append _ _ h]
  decide

/-- The I/O context is freed only after the trailer among the defer events. -/
theorem noTrailerAfterFree_deferTail (np : Nat) :
    noTrailerAfterFree (deferTail np) = true := by
  have h : Ev.freeIOCtx ∉ List.replicate np Ev.freePacket := fun hm => by
    have := List.eq_of_mem_replicate hm
    simp at this
  rw [deferTail, noTrailerAfterFree_append _ _ h]
  decide

/-- A trace without trailer events trivially satisfies the trailer scanner. -/
theorem noPacketAfterTrailer_of_no_trailer (l : List Ev)
    (h : Ev.writeTrailer ∉ l) : noPacketAfterTrailer l = true := by
  have hq := noPacketAfterTrailer_append l [] h
  simpa using hq

/-- A trace without `freeIOCtx` events trivially satisfies the free scanner. -/
theorem noTrailerAfterFree_of_no_free (l : List Ev)
    (h : Ev.freeIOCtx ∉ l) : noTrailerAfterFree l = true := by
  have hq := noTrailerAfterFree_append l [] h
  simpa using hq

/-- C1: for every frame counter N ≥ 0 and target frame rate fps (positive, as
required for the Go division `(90*1000)/fps`), the presentation timestamp
stamped on the N-th submitted frame of any run equals N × (90000 / fps)
exactly, in integer arithmetic — one multiplication per frame, so no drift
accumulates — and the frame counter starts at 0 and increases by one per
submitted frame (the N-th sent PTS is indexed by N). -/
theorem ptsPolicyC1 (wd ht : Int) (fps : Nat) (hfps : 0 < fps) (e : Env) :
    ∀ i, i < (sentPts (StartScreenRecording wd ht fps e)).length →
      (sentPts (StartScreenRecording wd ht fps e)).get? i =
        some (i * ((90 * 1000) / fps)) := by
  cases hsp : startupPhase wd ht fps e with
  | error t =>
    obtain ⟨hdec, _⟩ := run_decomp_error wd ht fps e t hsp
    rw [hdec]
    rcases startupPhase_error wd ht fps e t hsp with h | h | h | h | h | h | h <;>
      subst h <;> intro i hi <;> simp [sentPts] at hi
  | ok pr =>
    obtain ⟨s2, tb⟩ := pr
    obtain ⟨hs2, htb, _⟩ := startupPhase_ok wd ht fps e s2 tb hsp
    subst hs2
    subst htb
    obtain ⟨k, hk⟩ :=
      loopRun_sentPts ((90 * 1000) / fps) ⟨1, 90 * 1000⟩ ⟨1, 90 * 1000⟩ e.loop 0 0
    have hdec : sentPts (StartScreenRecording wd ht fps e) =
        ptsFrom 0 ((90 * 1000) / fps) k := by
      rw [run_decomp wd ht fps e _ _ hsp]
      cases hex :
          (loopRun ((90 * 1000) / fps) ⟨1, 90 * 1000⟩ ⟨1, 90 * 1000⟩ 0 0 e.loop).2.1 <;>
        · simp [hex, sentPts_append, sentPts, sentPts_deferTail]
          exact hk
    rw [hdec]
    intro i hi
    rw [ptsFrom_length] at hi
    have h := ptsFrom_get ((90 * 1000) / fps) k 0 i hi
    simpa using h

/-- Witness for C1: 30 fps, two frames submitted; the second frame (counter
value 1) is stamped 1 × (90000/30) = 3000. -/
theorem ptsPolicyC1Witness :
    (sentPts (StartScreenRecording 1920 1080 30 envTwoFrames)).get? 1 =
      some (1 * ((90 * 1000) / 30)) :=
  ptsPolicyC1 1920 1080 30 (by decide) envTwoFrames 1 (by decide)

/-- C2 (code bug): the orchestrator never submits the "no more frames"
signal — no run of `StartScreenRecording` contains a `sendFlush` event, so no
post-cancellation flush-and-drain ever happens — yet a run that ends (here:
startup succeeds, one frame is encoded and written, then cancellation fires)
does write the trailer; the encoder's buffered tail is silently dropped,
contradicting the claim and the spec's own flush requirement. -/
theorem flushBeforeTrailerC2Bug :
    (∀ (wd ht : Int) (fps : Nat) (e : Env),
      (StartScreenRecording wd ht fps e).count Ev.sendFlush = 0) ∧
    Ev.writeTrailer ∈ StartScreenRecording 1920 1080 30 envStream ∧
    (startScreenRecordingRun 1920 1080 30 envStream).2 = true := by
  refine ⟨?_, by decide, by decide⟩
  intro wd ht fps e
  cases hsp : startupPhase wd ht fps e with
  | error t =>
    obtain ⟨hdec, _⟩ := run_decomp_error wd ht fps e t hsp
    rw [hdec]
    rcases startupPhase_error wd ht fps e t hsp with h | h | h | h | h | h | h <;>
      subst h <;> decide
  | ok pr =>
    obtain ⟨s2, tb⟩ := pr
    obtain ⟨hs2, htb, _⟩ := startupPhase_ok wd ht fps e s2 tb hsp
    subst hs2
    subst htb
    rw [run_decomp wd ht fps e _ _ hsp]
    refine List.count_eq_zero.mpr ?_
    intro hm
    rcases List.mem_append.mp hm with hm | hm
    · simp at hm
    · rcases List.mem_append.mp hm with hm | hm
      · exact loopRun_not_mem _ _ _ _ _ _ Ev.sendFlush rfl hm
      · cases hex :
            (loopRun ((90 * 1000) / fps) ⟨1, 90 * 1000⟩ ⟨1, 90 * 1000⟩ 0 0 e.loop).2.1 <;>
          rw [hex] at hm
        · simp at hm
        · rcases mem_deferTail _ _ hm with h | h | h | h | h | h <;> simp at h

/-- C5 counterexample: the claim that the stream time base the muxer sees
differs from the encoder's is false — `videoStream.SetTimeBase(encCtx.TimeBase())`
makes them equal, so a run that writes a packet rescales from 1/90000 to the
very same 1/90000. -/
theorem rescaleC5Cex :
    ¬ (∀ (wd ht : Int) (fps : Nat) (e : Env) (s d : Rational),
        Ev.rescaleTs s d ∈ StartScreenRecording wd ht fps e → s ≠ d) := by
  intro hcl
  exact hcl 1920 1080 30 envStream ⟨1, 90 * 1000⟩ ⟨1, 90 * 1000⟩ (by decide) rfl

/-- C5 (amended): every packet write in every run is immediately preceded by
a timestamp rescale from the encoder time base to the stream time base — no
write path omits it — but the stream time base is set equal to the encoder's
(both 1/90000), so the rescale is an identity as written, not a change of
time base. -/
theorem rescaleC5Amended (wd ht : Int) (fps : Nat) (e : Env) :
    rescaleBeforeWrites (StartScreenRecording wd ht fps e) = true ∧
    ∀ s d, Ev.rescaleTs s d ∈ StartScreenRecording wd ht fps e →
      s = ⟨1, 90 * 1000⟩ ∧ d = s := by
  cases hsp : startupPhase wd ht fps e with
  | error t =>
    obtain ⟨hdec, _⟩ := run_decomp_error wd ht fps e t hsp
    rw [hdec]
    rcases startupPhase_error wd ht fps e t hsp with h | h | h | h | h | h | h <;>
      subst h <;>
      exact ⟨by decide, by intro s d hm; simp at hm⟩
  | ok pr =>
    obtain ⟨s2, tb⟩ := pr
    obtain ⟨hs2, htb, _⟩ := startupPhase_ok wd ht fps e s2 tb hsp
    subst hs2
    subst htb
    rw [run_decomp wd ht fps e _ _ hsp]
    constructor
    · cases hex :
          (loopRun ((90 * 1000) / fps) ⟨1, 90 * 1000⟩ ⟨1, 90 * 1000⟩ 0 0 e.loop).2.1 <;>
        simp [hex, rescaleBeforeWrites, guardedFrom, isWrite, isRescale,
          guardedFrom_append, loopRun_guardedFrom, deferTail_guardedFrom]
    · intro s d hm
      rcases List.mem_append.mp hm with hm | hm
      · simp at hm
      · rcases List.mem_append.mp hm with hm | hm
        · obtain ⟨h1, h2⟩ := loopRun_rescale ((90 * 1000) / fps) ⟨1, 90 * 1000⟩
            ⟨1, 90 * 1000⟩ e.loop 0 0 s d hm
          exact ⟨h1, by rw [h2, h1]⟩
        · cases hex :
              (loopRun ((90 * 1000) / fps) ⟨1, 90 * 1000⟩ ⟨1, 90 * 1000⟩ 0 0 e.loop).2.1 <;>
            rw [hex] at hm
          · simp at hm
          · rcases mem_deferTail _ _ hm with h | h | h | h | h | h <;> simp at h

/-- Witness for C5 (amended): in the concrete run that writes one packet, the
scan succeeds and the rescale arguments are both 1/90000. -/
theorem rescaleC5Witness :
    rescaleBeforeWrites (StartScreenRecording 1920 1080 30 envStream) = true ∧
    (⟨1, 90 * 1000⟩ : Rational) = ⟨1, 90 * 1000⟩ ∧
    (⟨1, 90 * 1000⟩ : Rational) = ⟨1, 90 * 1000⟩ :=
  ⟨(rescaleC5Amended 1920 1080 30 envStream).1,
   ((rescaleC5Amended 1920 1080 30 envStream).2 ⟨1, 90 * 1000⟩ ⟨1, 90 * 1000⟩
     (by decide)).1,
   ((rescaleC5Amended 1920 1080 30 envStream).2 ⟨1, 90 * 1000⟩ ⟨1, 90 * 1000⟩
     (by decide)).2⟩

/-- C6: in every run, the header is written at most once, after the stream
parameters (codec parameters, time base) were finalized from the encoder's
configuration and before any packet write; a packet write implies the header
was written; the trailer is written at most once and never before a packet
write follows it; the I/O context is freed only after the trailer; and a run
that wrote the header and returned writes the trailer and frees the I/O
context. -/
theorem containerLifecycleC6 (wd ht : Int) (fps : Nat) (e : Env) :
    (StartScreenRecording wd ht fps e).count Ev.writeHeader ≤ 1 ∧
    (StartScreenRecording wd ht fps e).count Ev.writeTrailer ≤ 1 ∧
    headerBeforePackets (StartScreenRecording wd ht fps e) = true ∧
    paramsBeforeHeader false false (StartScreenRecording wd ht fps e) = true ∧
    noPacketAfterTrailer (StartScreenRecording wd ht fps e) = true ∧
    noTrailerAfterFree (StartScreenRecording wd ht fps e) = true ∧
    (Ev.writePacket ∈ StartScreenRecording wd ht fps e →
      Ev.writeHeader ∈ StartScreenRecording wd ht fps e) ∧
    (Ev.writeHeader ∈ StartScreenRecording wd ht fps e →
      (startScreenRecordingRun wd ht fps e).2 = true →
      Ev.writeTrailer ∈ StartScreenRecording wd ht fps e ∧
        Ev.freeIOCtx ∈ StartScreenRecording wd ht fps e) := by
  cases hsp : startupPhase wd ht fps e with
  | error t =>
    obtain ⟨hdec, hex2⟩ := run_decomp_error wd ht fps e t hsp
    rw [hdec]
    rcases startupPhase_error wd ht fps e t hsp with h | h | h | h | h | h | h <;>
      subst h <;>
      exact ⟨by decide, by decide, by decide, by decide, by decide, by decide,
        by decide, fun hm => absurd hm (by decide)⟩
  | ok pr =>
    obtain ⟨s2, tb⟩ := pr
    obtain ⟨hs2, htb, _⟩ := startupPhase_ok wd ht fps e s2 tb hsp
    subst hs2
    subst htb
    cases hex :
        (loopRun ((90 * 1000) / fps) ⟨1, 90 * 1000⟩ ⟨1, 90 * 1000⟩ 0 0 e.loop).2.1 with
    | false =>
      have hdec : StartScreenRecording wd ht fps e =
          [Ev.setParamsFromCtx, Ev.setStreamTimeBase ⟨1, 90 * 1000⟩, Ev.writeHeader,
            Ev.samplerStart] ++
          (loopRun ((90 * 1000) / fps) ⟨1, 90 * 1000⟩ ⟨1, 90 * 1000⟩ 0 0 e.loop).1 := by
        rw [run_decomp wd ht fps e _ _ hsp, hex]
        simp
      have hrx : (startScreenRecordingRun wd ht fps e).2 = false := by
        rw [run_exit wd ht fps e _ _ hsp, hex]
      rw [hdec]
      refine ⟨?_, ?_, ?_, ?_, ?_, ?_, ?_, ?_⟩
      · rw [List.count_append, loopRun_count_zero _ _ _ _ _ _ Ev.writeHeader rfl]
        decide
      · rw [List.count_append, loopRun_count_zero _ _ _ _ _ _ Ev.writeTrailer rfl]
        decide
      · simp [headerBeforePackets]
      · simp [paramsBeforeHeader]
      · rw [noPacketAfterTrailer_append _ _ (by decide)]
        exact noPacketAfterTrailer_of_no_trailer _
          (loopRun_not_mem _ _ _ _ _ _ Ev.writeTrailer rfl)
      · rw [noTrailerAfterFree_append _ _ (by decide)]
        exact noTrailerAfterFree_of_no_free _
          (loopRun_not_mem _ _ _ _ _ _ Ev.freeIOCtx rfl)
      · intro _
        simp
      · intro _ habs
        rw [hrx] at habs
        exact absurd habs (by decide)
    | true =>
      have hdec : StartScreenRecording wd ht fps e =
          [Ev.setParamsFromCtx, Ev.setStreamTimeBase ⟨1, 90 * 1000⟩, Ev.writeHeader,
            Ev.samplerStart] ++
          ((loopRun ((90 * 1000) / fps) ⟨1, 90 * 1000⟩ ⟨1, 90 * 1000⟩ 0 0 e.loop).1 ++
            deferTail
              (loopRun ((90 * 1000) / fps) ⟨1, 90 * 1000⟩ ⟨1, 90 * 1000⟩ 0 0 e.loop).2.2) := by
        rw [run_decomp wd ht fps e _ _ hsp, hex]
        simp
      rw [hdec]
      refine ⟨?_, ?_, ?_, ?_, ?_, ?_, ?_, ?_⟩
      · rw [List.count_append, List.count_append,
          loopRun_count_zero _ _ _ _ _ _ Ev.writeHeader rfl,
          deferTail_count_zero Ev.writeHeader _ (by decide) (by decide) (by decide)
            (by decide) (by decide) (by decide)]
        decide
      · rw [List.count_append, List.count_append,
          loopRun_count_zero _ _ _ _ _ _ Ev.writeTrailer rfl,
          deferTail_count_trailer]
        decide
      · simp [headerBeforePackets]
      · simp [paramsBeforeHeader]
      · rw [noPacketAfterTrailer_append _ _ (by decide),
          noPacketAfterTrailer_append _ _
            (loopRun_not_mem _ _ _ _ _ _ Ev.writeTrailer rfl)]
        exact noPacketAfterTrailer_deferTail _
      · rw [noTrailerAfterFree_append _ _ (by decide),
          noTrailerAfterFree_append _ _
            (loopRun_not_mem _ _ _ _ _ _ Ev.freeIOCtx rfl)]
        exact noTrailerAfterFree_deferTail _
      · intro _
        simp
      · intro _ _
        constructor <;> simp [deferTail]

/-- Witness for C6: in the concrete one-packet run, the header was written,
the run returned, and trailer and I/O release both happened. -/
theorem containerLifecycleC6Witness :
    Ev.writeTrailer ∈ StartScreenRecording 1920 1080 30 envStream ∧
    Ev.freeIOCtx ∈ StartScreenRecording 1920 1080 30 envStream :=
  (containerLifecycleC6 1920 1080 30 envStream).2.2.2.2.2.2.2 (by decide) (by decide)

/-- C7: if the codec lookup fails, or the codec-context allocation fails, or
the output I/O destination cannot be opened, the run aborts at startup and
the screen sampler is never started (no `samplerStart` event occurs). -/
theorem startupFailC7 (wd ht : Int) (fps : Nat) (e : Env)
    (hfail : e.codecFound = false ∨ e.ctxAllocOk = false ∨ e.openIOOk = false) :
    (StartScreenRecording wd ht fps e).count Ev.samplerStart = 0 ∧
    (startScreenRecordingRun wd ht fps e).2 = true := by
  cases hsp : startupPhase wd ht fps e with
  | error t =>
    obtain ⟨hdec, hex⟩ := run_decomp_error wd ht fps e t hsp
    refine ⟨?_, hex⟩
    rw [hdec]
    rcases startupPhase_error wd ht fps e t hsp with h | h | h | h | h | h | h <;>
      subst h <;> decide
  | ok pr =>
    obtain ⟨s2, tb⟩ := pr
    obtain ⟨_, _, _, hcf, hca, _, _, _, hoi, _⟩ :=
      startupPhase_ok wd ht fps e s2 tb hsp
    rcases hfail with h | h | h <;> simp_all

/-- Witness for C7: with the codec lookup failing, the sampler never starts
and the run aborts. -/
theorem startupFailC7Witness :
    (StartScreenRecording 1920 1080 30 envCodecFail).count Ev.samplerStart = 0 ∧
    (startScreenRecordingRun 1920 1080 30 envCodecFail).2 = true :=
  startupFailC7 1920 1080 30 envCodecFail (Or.inl rfl)

end Screenrec
